import Mathlib

/-
Verification of the dlt-meta repository's dataflow-spec utilities
(src/dataflow_spec.py) and integration-test orchestrator
(integration_tests/run_integration_tests.py) against its specification.

Python dictionaries produced by json.loads are modelled as association
lists over a small JSON-value type `JVal`; Python None is `JVal.null`.
Spark dataframes are modelled as lists of rows; spark.conf as a partial
map from key to string.
-/

set_option autoImplicit false

namespace DltMeta

/-- A JSON-like value as produced by json.loads, restricted to the shapes
that occur in dataflow-spec payloads: null, booleans, strings, arrays of
strings, and string-to-string objects (used for parsed sink options). -/
inductive JVal where
  | null : JVal
  | bool : Bool → JVal
  | str : String → JVal
  | arr : List String → JVal
  | obj : List (String × String) → JVal
deriving DecidableEq, Repr

/-- Lookup in an association list keyed by strings (Python `d[k]` /
`d.get(k)`), returning the first binding. -/
def lookupKV {α : Type} : List (String × α) → String → Option α
  | [], _ => none
  | (k, v) :: rest, key => if k == key then some v else lookupKV rest key

/-- Python `key in d.keys()`. -/
def containsKey {α : Type} (l : List (String × α)) (key : String) : Bool :=
  (lookupKV l key).isSome

/-- Python `d[key] = v`: replace the binding in place if present, else
append it at the end (dict insertion-order semantics). -/
def setKV {α : Type} : List (String × α) → String → α → List (String × α)
  | [], key, v => [(key, v)]
  | (k, w) :: rest, key, v =>
      if k == key then (key, v) :: rest else (k, w) :: setKV rest key v

/-- Python `del d[key]`: remove the binding for the key (a dict holds at
most one binding per key). -/
def delKV {α : Type} : List (String × α) → String → List (String × α)
  | [], _ => []
  | (k, w) :: rest, key =>
      if k == key then delKV rest key else (k, w) :: delKV rest key

/-- DataflowSpecUtils.populate_additional_df_cols: for each listed
column absent from the row dictionary, bind it to None; the dictionary
is otherwise unchanged. -/
def populate_additional_df_cols (row : List (String × JVal)) :
    List String → List (String × JVal)
  | [] => row
  | c :: cs =>
      populate_additional_df_cols
        (if containsKey row c then row else row ++ [(c, JVal.null)]) cs

/-- Python str.strip(): drop leading and trailing whitespace (modelled
over the character list so that it evaluates in the kernel). -/
def stripStr (s : String) : String :=
  String.mk
    (((s.data.dropWhile Char.isWhitespace).reverse.dropWhile
        Char.isWhitespace).reverse)

/-- DataflowSpecUtils.get_partition_cols: None for an empty list; for a
singleton, None when the entry is empty or strips to empty, else the
list; for a longer list, Python `filter(None, ...)` keeps the non-empty
entries. -/
def get_partition_cols (partition_columns : List String) :
    Option (List String) :=
  match partition_columns with
  | [] => none
  | [c] => if c = "" ∨ stripStr c = "" then none else some [c]
  | cs => some (cs.filter (fun s => s ≠ ""))

/-- DataflowSpecUtils.cdc_applychanges_api_mandatory_attributes. -/
def cdc_applychanges_api_mandatory_attributes : List String :=
  ["keys", "sequence_by", "scd_type"]

/-- DataflowSpecUtils.cdc_applychanges_api_attributes. -/
def cdc_applychanges_api_attributes : List String :=
  ["keys", "sequence_by", "where", "ignore_null_updates",
   "apply_as_deletes", "apply_as_truncates", "column_list",
   "except_column_list", "scd_type", "track_history_column_list",
   "track_history_except_column_list", "flow_name", "once",
   "ignore_null_updates_column_list",
   "ignore_null_updates_except_column_list"]

/-- DataflowSpecUtils.cdc_applychanges_api_attributes_defaults. -/
def cdc_applychanges_api_attributes_defaults : List (String × JVal) :=
  [("where", JVal.null), ("ignore_null_updates", JVal.bool false),
   ("apply_as_deletes", JVal.null), ("apply_as_truncates", JVal.null),
   ("column_list", JVal.null), ("except_column_list", JVal.null),
   ("track_history_column_list", JVal.null),
   ("track_history_except_column_list", JVal.null),
   ("flow_name", JVal.null), ("once", JVal.bool false),
   ("ignore_null_updates_column_list", JVal.null),
   ("ignore_null_updates_except_column_list", JVal.null)]

/-- DataflowSpecUtils.additional_cdc_apply_changes_columns. -/
def additional_cdc_apply_changes_columns : List String :=
  ["flow_name", "once"]

/-- The CDCApplyChanges dataclass. Fields are untyped in Python, so each
holds a `JVal`. The Python field named `where` is spelled `where_` here
because `where` is a Lean keyword. -/
structure CDCApplyChanges where
  keys : JVal
  sequence_by : JVal
  where_ : JVal
  ignore_null_updates : JVal
  apply_as_deletes : JVal
  apply_as_truncates : JVal
  column_list : JVal
  except_column_list : JVal
  scd_type : JVal
  track_history_column_list : JVal
  track_history_except_column_list : JVal
  flow_name : JVal
  once : JVal
  ignore_null_updates_column_list : JVal
  ignore_null_updates_except_column_list : JVal
deriving DecidableEq, Repr

/-- Failure modes of get_cdc_apply_changes: the explicit
`mandatory missing keys= ... for merge info` Exception (carrying the
missing mandatory keys named by the message, in attribute-list order),
and the Python TypeError raised by `CDCApplyChanges(**d)` when the
dictionary holds keys that are not dataclass fields. -/
inductive CdcError where
  | missingMandatory (missing : List String)
  | badConstructorArgs (fields : List String)
deriving DecidableEq, Repr

/-- Keys of a dictionary, in insertion order (Python `d.keys()`). -/
def payloadKeys {α : Type} (d : List (String × α)) : List String :=
  d.map Prod.fst

/-- Read a dataclass constructor argument from the dictionary (total
rendering; callers guard presence). -/
def getF (d : List (String × JVal)) (k : String) : JVal :=
  (lookupKV d k).getD JVal.null

/-- Python `CDCApplyChanges(**d)`: succeeds exactly when the dictionary
keys are exactly the fifteen dataclass fields. -/
def mkCDCApplyChanges (d : List (String × JVal)) :
    Except CdcError CDCApplyChanges :=
  if (d.all fun p => cdc_applychanges_api_attributes.contains p.1)
      && (cdc_applychanges_api_attributes.all fun k => containsKey d k) then
    .ok ⟨getF d "keys", getF d "sequence_by", getF d "where",
      getF d "ignore_null_updates", getF d "apply_as_deletes",
      getF d "apply_as_truncates", getF d "column_list",
      getF d "except_column_list", getF d "scd_type",
      getF d "track_history_column_list",
      getF d "track_history_except_column_list", getF d "flow_name",
      getF d "once", getF d "ignore_null_updates_column_list",
      getF d "ignore_null_updates_except_column_list"⟩
  else .error (.badConstructorArgs (payloadKeys d))

/-- The local `missing_cdc_payload_keys` of get_cdc_apply_changes: the
fixed attributes absent from the payload, in attribute-list order (the
Python set difference, rendered deterministically). -/
def missing_cdc_payload_keys (cdc_apply_changes : List (String × JVal)) :
    List String :=
  cdc_applychanges_api_attributes.filter
    (fun k => !(containsKey cdc_apply_changes k))

/-- The local `missing_mandatory_attr` of get_cdc_apply_changes, in
attribute-list order. -/
def missing_mandatory_attr (cdc_apply_changes : List (String × JVal)) :
    List String :=
  cdc_applychanges_api_mandatory_attributes.filter
    (fun k => !(containsKey cdc_apply_changes k))

/-- The defaults-filling loop of get_cdc_apply_changes: bind each missing
attribute to its entry in the defaults table. -/
def cdcFillDefaults (cdc_apply_changes : List (String × JVal)) :
    List (String × JVal) :=
  (missing_cdc_payload_keys cdc_apply_changes).foldl
    (fun d k =>
      setKV d k
        ((lookupKV cdc_applychanges_api_attributes_defaults k).getD
          JVal.null))
    cdc_apply_changes

/-- DataflowSpecUtils.get_cdc_apply_changes on an already-json.loads-ed
payload dictionary: raise naming the missing mandatory keys when any of
`keys`, `sequence_by`, `scd_type` is absent; otherwise fill every absent
attribute of the fixed fifteen-attribute list with its default,
re-populate `flow_name`/`once`, and construct the dataclass. -/
def get_cdc_apply_changes (cdc_apply_changes : List (String × JVal)) :
    Except CdcError CDCApplyChanges :=
  if missing_mandatory_attr cdc_apply_changes ≠ [] then
    .error (.missingMandatory (missing_mandatory_attr cdc_apply_changes))
  else
    mkCDCApplyChanges
      (populate_additional_df_cols (cdcFillDefaults cdc_apply_changes)
        additional_cdc_apply_changes_columns)

/-- DataflowSpecUtils.sink_mandatory_attributes. -/
def sink_mandatory_attributes : List String := ["name", "format", "options"]

/-- DataflowSpecUtils.supported_sink_formats. -/
def supported_sink_formats : List String := ["delta", "kafka"]

/-- The DLTSink dataclass (untyped fields). -/
structure DLTSink where
  name : JVal
  format : JVal
  options : JVal
deriving DecidableEq, Repr

/-- Failure modes of get_sinks: the explicit missing-mandatory-keys and
`Unsupported sink format` Exceptions, the AttributeError hit when a
kafka sink's parsed options is not an object and `.keys()` is called on
it, and the TypeError from `DLTSink(**d)` on unexpected keys. -/
inductive SinkError where
  | missingMandatory (missing : List String)
  | unsupportedFormat (format : JVal)
  | optionsNotObject
  | badConstructorArgs (fields : List String)
deriving DecidableEq, Repr

/-- Python `format in supported_sink_formats` for a JSON value: only a
string can be a member of a list of strings. -/
def jvalInStrList (v : JVal) (l : List String) : Bool :=
  match v with
  | JVal.str s => l.contains s
  | _ => false

/-- Python `DLTSink(**d)`: succeeds exactly when the dictionary keys are
exactly `name`, `format`, `options`. -/
def mkDLTSink (d : List (String × JVal)) : Except SinkError DLTSink :=
  if (d.all fun p => sink_mandatory_attributes.contains p.1)
      && (sink_mandatory_attributes.all fun k => containsKey d k) then
    .ok ⟨getF d "name", getF d "format", getF d "options"⟩
  else .error (.badConstructorArgs (payloadKeys d))

/-- One iteration of the loop body of DataflowSpecUtils.get_sinks. The
nested serialized `options` payload is modelled as already parsed, so
the `json.loads(json_sink[...])` re-assignment is the identity here;
`secrets` models `dbutils.secrets.get`. -/
def sinkMissingMandatory (json_sink : List (String × JVal)) : List String :=
  sink_mandatory_attributes.filter (fun k => !(containsKey json_sink k))

/-- The sink's `format` value, as read by `json_sink['format']` (the key
is guaranteed present by the mandatory check). -/
def sinkFormat (json_sink : List (String × JVal)) : JVal :=
  (lookupKV json_sink "format").getD JVal.null

/-- The secret-resolution block of get_sinks for a kafka sink: bind
`kafka.bootstrap.servers` to the secret looked up at the configured
scope/key pair, then delete the two reference fields. -/
def resolveKafkaBootstrap (secrets : String → String → String)
    (kafka_options_json : List (String × String)) : List (String × String) :=
  delKV
    (delKV
      (setKV kafka_options_json "kafka.bootstrap.servers"
        (secrets
          ((lookupKV kafka_options_json
            "kafka_bootstrap_servers_secrets_scope").getD "")
          ((lookupKV kafka_options_json
            "kafka_bootstrap_servers_secrets_key").getD "")))
      "kafka_bootstrap_servers_secrets_scope")
    "kafka_bootstrap_servers_secrets_key"

def processSink (secrets : String → String → String)
    (json_sink : List (String × JVal)) : Except SinkError DLTSink :=
  if sinkMissingMandatory json_sink ≠ [] then
    .error (.missingMandatory (sinkMissingMandatory json_sink))
  else if !(jvalInStrList (sinkFormat json_sink) supported_sink_formats) then
    .error (.unsupportedFormat (sinkFormat json_sink))
  else if sinkFormat json_sink = JVal.str "kafka"
      && containsKey json_sink "options" then
    match lookupKV json_sink "options" with
    | some (JVal.obj kafka_options_json) =>
        if containsKey kafka_options_json
              "kafka_bootstrap_servers_secrets_scope"
            && containsKey kafka_options_json
              "kafka_bootstrap_servers_secrets_key" then
          mkDLTSink
            (setKV json_sink "options"
              (JVal.obj (resolveKafkaBootstrap secrets kafka_options_json)))
        else mkDLTSink json_sink
    | _ => .error .optionsNotObject
  else mkDLTSink json_sink

/-- DataflowSpecUtils.get_sinks on an already-json.loads-ed list of sink
dictionaries: process each entry in order, stopping at the first raised
error. -/
def get_sinks (sinks : List (List (String × JVal)))
    (secrets : String → String → String) : Except SinkError (List DLTSink) :=
  match sinks with
  | [] => .ok []
  | s :: rest =>
      match processSink secrets s with
      | .error e => .error e
      | .ok dlt_sink =>
          match get_sinks rest secrets with
          | .error e => .error e
          | .ok l => .ok (dlt_sink :: l)

/-- The filled dictionary used by both parts of C2: the three mandatory
bindings followed by the twelve defaults in attribute order. -/
def cdcFilledDict (kv sv tv : JVal) : List (String × JVal) :=
  [("keys", kv), ("sequence_by", sv), ("scd_type", tv),
   ("where", JVal.null), ("ignore_null_updates", JVal.bool false),
   ("apply_as_deletes", JVal.null), ("apply_as_truncates", JVal.null),
   ("column_list", JVal.null), ("except_column_list", JVal.null),
   ("track_history_column_list", JVal.null),
   ("track_history_except_column_list", JVal.null),
   ("flow_name", JVal.null), ("once", JVal.bool false),
   ("ignore_null_updates_column_list", JVal.null),
   ("ignore_null_updates_except_column_list", JVal.null)]

/-- Configuration errors raised by
DataflowSpecUtils.check_spark_dataflowpipeline_conf_params. Each
constructor carries exactly the configuration-key strings interpolated
into the corresponding Exception message text. -/
inductive ConfError where
  | missingLayer (named : String)
  | missingSpecTable (named : String)
  | missingGroupAndIds (namedGroup namedIds : String)
deriving DecidableEq, Repr

/-- DataflowSpecUtils.check_spark_dataflowpipeline_conf_params. The
spark.conf context is a partial map from key to string. The first check
reads the key `layer` but its message interpolates `layer_arg`; the
second reads `<layer>.dataflowspecTable` (with `layer` the configured
value) but its message interpolates `<layer_arg>.dataflowspecTable`; the
third reads and names `<layer>.group` / `<layer>.dataflowIds`. -/
def check_spark_dataflowpipeline_conf_params (conf : String → Option String)
    (layer_arg : String) : Except ConfError Unit :=
  match conf "layer" with
  | none => .error (.missingLayer layer_arg)
  | some layer =>
      match conf (layer ++ ".dataflowspecTable") with
      | none => .error (.missingSpecTable (layer_arg ++ ".dataflowspecTable"))
      | some _ =>
          match conf (layer ++ ".group"), conf (layer ++ ".dataflowIds") with
          | none, none =>
              .error
                (.missingGroupAndIds (layer ++ ".group")
                  (layer ++ ".dataflowIds"))
          | _, _ => .ok ()

/-- The seven event-hub arguments made mandatory by process_arguments
when `--source eventhub` is given, in source order. -/
def eventhub_mandatory_args : List String :=
  ["eventhub_name", "eventhub_name_append_flow",
   "eventhub_producer_accesskey_name", "eventhub_consumer_accesskey_name",
   "eventhub_secrets_scope_name", "eventhub_namespace", "eventhub_port"]

/-- The two kafka arguments made mandatory by process_arguments when
`--source kafka` is given. -/
def kafka_mandatory_args : List String :=
  ["kafka_topic_name", "kafka_broker"]

/-- The Exception raised by check_cond_mandatory_arg, carrying the
argument name its message interpolates. -/
inductive ArgError where
  | missingArg (arg : String)
deriving DecidableEq, Repr

/-- check_cond_mandatory_arg of process_arguments: scan the mandatory
list in order and raise for the first argument whose parsed value is
None. The parsed-args dictionary maps every declared option to its
value, None when not provided. -/
def check_cond_mandatory_arg (args : String → Option String) :
    List String → Except ArgError Unit
  | [] => .ok ()
  | a :: rest =>
      if (args a).isNone then .error (.missingArg a)
      else check_cond_mandatory_arg args rest

/-- The post-parsing conditional-requiredness enforcement at the end of
process_arguments: event-hub sources require the seven event-hub
arguments, kafka sources the two kafka arguments. -/
def process_arguments_conditional (args : String → Option String) :
    Except ArgError Unit :=
  if args "source" = some "eventhub" then
    check_cond_mandatory_arg args eventhub_mandatory_args
  else if args "source" = some "kafka" then
    check_cond_mandatory_arg args kafka_mandatory_args
  else .ok ()

/-- The operations named in the body of DLTMETARunner.run, plus clean_up
(which appears only in the commented-out variant, never in the body). -/
inductive RunStep where
  | init_dltmeta_runner_conf : RunStep
  | exitCall : RunStep
  | create_bronze_silver_dlt : RunStep
  | launch_workflow : RunStep
  | download_test_results : RunStep
  | clean_up : RunStep
deriving DecidableEq, Repr

/-- The straight-line body of DLTMETARunner.run, in source order:
init_dltmeta_runner_conf, a bare exit(), then the three calls that
follow it. -/
def runBody : List RunStep :=
  [.init_dltmeta_runner_conf, .exitCall, .create_bronze_silver_dlt,
   .launch_workflow, .download_test_results]

/-- What executing one statement does to control flow. -/
inductive StepOutcome where
  | next : StepOutcome
  | raised : StepOutcome
  | exited : StepOutcome
deriving DecidableEq, Repr

/-- Outcome of one step under an environment telling whether each call
completes normally (exit() always terminates the process: in Python it
raises SystemExit, which nothing in run catches). -/
def stepOutcome (env : RunStep → Bool) (s : RunStep) : StepOutcome :=
  match s with
  | .exitCall => .exited
  | s => if env s then .next else .raised

/-- Sequential execution of a statement list: a raising or exiting step
is the last one executed; later statements are never reached. Returns
the executed statements in order. -/
def execSteps (env : RunStep → Bool) : List RunStep → List RunStep
  | [] => []
  | s :: rest =>
      match stepOutcome env s with
      | .next => s :: execSteps env rest
      | .raised => [s]
      | .exited => [s]

/-- The statements DLTMETARunner.run actually executes under a given
environment. -/
def runTrace (env : RunStep → Bool) : List RunStep :=
  execSteps env runBody

/-- Python str.endswith(suffix), over character lists so that it
evaluates in the kernel. -/
def endsWithStr (s suffix_str : String) : Bool :=
  decide (suffix_str.data.length ≤ s.data.length) &&
    (s.data.drop (s.data.length - suffix_str.data.length) == suffix_str.data)

/-- The resources-walk loop of upload_files_to_databricks: every file of
every listed directory is uploaded unconditionally, and the Python loop
variable `file` ends up bound to the last file name iterated (it keeps
its previous binding across directories without files). Each directory
of the os.walk is its list of file names; `file` enters as None at the
start of the function (the variable is not yet defined). -/
def resourcesUploadLoop (file : Option String) :
    List (List String) → Option String × List String
  | [] => (file, [])
  | files :: rest =>
      let file2 := match files.getLast? with
        | none => file
        | some g => some g
      let result := resourcesUploadLoop file2 rest
      (result.1, files ++ result.2)

/-- The conf-walk loop of upload_files_to_databricks: for each directory
the code tests `file.endswith("json")` on the loop variable left over
from earlier iterations (NameError if no file was ever iterated), and
only when that single test passes does it upload every file of the
directory, rebinding `file` to the last one. -/
def confUploadLoop (file : Option String) :
    List (List String) → Except String (List String)
  | [] => .ok []
  | files :: rest =>
      match file with
      | none => .error "NameError"
      | some f =>
          if endsWithStr f "json" then
            match confUploadLoop
                (match files.getLast? with
                  | none => some f
                  | some g => some g) rest with
            | .error e => .error e
            | .ok up => .ok (files ++ up)
          else
            match confUploadLoop (some f) rest with
            | .error e => .error e
            | .ok up => .ok up

/-- The two upload walks of DLTMETARunner.upload_files_to_databricks in
sequence, threading the shared `file` variable from the resources walk
into the conf walk; returns the uploaded resource files and conf files.
(The later notebook-upload phase of the method is independent of this
claim and not modelled.) -/
def upload_files_to_databricks (resourceDirs confDirs : List (List String)) :
    Except String (List String × List String) :=
  match confUploadLoop (resourcesUploadLoop none resourceDirs).1 confDirs with
  | .error e => .error e
  | .ok confUploaded =>
      .ok ((resourcesUploadLoop none resourceDirs).2, confUploaded)

/-- One row of the dataflow-spec metadata table, restricted to the
columns _get_dataflow_spec reads; `payload` stands for all remaining
columns. `version` is modelled with a linearly ordered numeric type (the
window orders by the version column). -/
structure SpecRow where
  dataFlowGroup : String
  dataFlowId : String
  version : Nat
  payload : String
deriving DecidableEq, Repr

/-- Whether two rows fall into the same window partition
(`Window.partitionBy(dataFlowGroup, dataFlowId)`). -/
def samePartition (a b : SpecRow) : Bool :=
  a.dataFlowGroup == b.dataFlowGroup && a.dataFlowId == b.dataFlowId

/-- Whether indexed row `p` is ordered strictly before indexed row `q`
by `row_number` over the partition, ordering by version descending;
ties are broken deterministically by list position. -/
def ranksBefore (p q : Nat × SpecRow) : Bool :=
  samePartition p.2 q.2 &&
    (decide (q.2.version < p.2.version) ||
      (q.2.version == p.2.version && decide (p.1 < q.1)))

/-- The window/dedup step of _get_dataflow_spec: number the rows of each
`(dataFlowGroup, dataFlowId)` partition by version descending and keep
only row number 1, i.e. the rows nothing in their partition ranks
before. -/
def keepLatest (rows : List SpecRow) : List SpecRow :=
  (rows.enum.filter
    (fun q => rows.enum.all (fun p => !(ranksBefore p q)))).map Prod.snd

/-- Python truthiness of an optional string (`if not group`). -/
def truthyStr : Option String → Bool
  | none => false
  | some s => !(s == "")

/-- Python truthiness of the optional dataflow-ids value. The
comma-separated id string spliced into the SQL `dataFlowId in (...)`
condition is modelled as the list of ids it denotes. -/
def truthyIds : Option (List String) → Bool
  | none => false
  | some l => !(l.isEmpty)

/-- The group after the spark-conf fallback (`<layer>.group`). -/
def effectiveGroup (confGroup group : Option String) : Option String :=
  if truthyStr group then group else confGroup

/-- The dataflow-ids after the spark-conf fallback
(`<layer>.dataflowIds`). -/
def effectiveIds (confIds ids : Option (List String)) :
    Option (List String) :=
  if truthyIds ids then ids else confIds

/-- The optional `.where(...)` filter of _get_dataflow_spec: when a
group or id list is available, filter by exact dataFlowGroup match if
the group is truthy, else by dataFlowId membership. -/
def filterSpecRows (group : Option String) (ids : Option (List String))
    (df : List SpecRow) : List SpecRow :=
  if truthyStr group || truthyIds ids then
    if truthyStr group then
      df.filter (fun r => r.dataFlowGroup == group.getD "")
    else
      df.filter (fun r => (ids.getD []).contains r.dataFlowId)
  else df

/-- DataflowSpecUtils._get_dataflow_spec: resolve group/ids from the
arguments with spark-conf fallback, optionally filter, then keep the
latest version per flow. The dataframe (or the table read when no
dataframe is supplied) is the row list `df`. -/
def _get_dataflow_spec (confGroup : Option String)
    (confIds : Option (List String)) (df : List SpecRow)
    (group : Option String) (dataflow_ids : Option (List String)) :
    List SpecRow :=
  keepLatest
    (filterSpecRows (effectiveGroup confGroup group)
      (effectiveIds confIds dataflow_ids) df)

theorem lookupKV_append_of_isSome {α : Type} {l₁ : List (String × α)}
    (l₂ : List (String × α)) {k : String} {v : α}
    (h : lookupKV l₁ k = some v) : lookupKV (l₁ ++ l₂) k = some v := by
  induction l₁ with
  | nil => simp [lookupKV] at h
  | cons p rest ih =>
      obtain ⟨a, b⟩ := p
      by_cases hk : a == k
      · simpa [lookupKV, hk] using (by simpa [lookupKV, hk] using h)
      · simp only [lookupKV, hk] at h ⊢
        simp only [Bool.false_eq_true, if_false]
        exact ih h

theorem lookupKV_append_of_none {α : Type} {l₁ : List (String × α)}
    (l₂ : List (String × α)) {k : String}
    (h : lookupKV l₁ k = none) : lookupKV (l₁ ++ l₂) k = lookupKV l₂ k := by
  induction l₁ with
  | nil => simp [lookupKV]
  | cons p rest ih =>
      obtain ⟨a, b⟩ := p
      by_cases hk : a == k
      · simp [lookupKV, hk] at h
      · simp only [lookupKV, hk] at h ⊢
        simp only [Bool.false_eq_true, if_false]
        exact ih h

theorem lookup_setKV_self {α : Type} (l : List (String × α)) (k : String)
    (v : α) : lookupKV (setKV l k v) k = some v := by
  induction l with
  | nil => simp [setKV, lookupKV]
  | cons p rest ih =>
      obtain ⟨a, b⟩ := p
      by_cases hak : a = k
      · subst hak
        simp [setKV, lookupKV]
      · simp [setKV, lookupKV, beq_iff_eq, hak, ih]

theorem lookup_setKV_ne {α : Type} (l : List (String × α)) {k key : String}
    (v : α) (h : k ≠ key) : lookupKV (setKV l key v) k = lookupKV l k := by
  induction l with
  | nil => simp [setKV, lookupKV, beq_iff_eq, Ne.symm h]
  | cons p rest ih =>
      obtain ⟨a, b⟩ := p
      by_cases hak : a = key
      · subst hak
        simp [setKV, lookupKV, beq_iff_eq, Ne.symm h]
      · by_cases hk : a = k
        · subst hk
          simp [setKV, lookupKV, beq_iff_eq, hak]
        · simp [setKV, lookupKV, beq_iff_eq, hak, hk, ih]

theorem lookup_delKV_self {α : Type} (l : List (String × α)) (k : String) :
    lookupKV (delKV l k) k = none := by
  induction l with
  | nil => simp [delKV, lookupKV]
  | cons p rest ih =>
      obtain ⟨a, b⟩ := p
      by_cases hak : a = k
      · subst hak
        simp [delKV, lookupKV, ih]
      · simp [delKV, lookupKV, beq_iff_eq, hak, ih]

theorem lookup_delKV_ne {α : Type} (l : List (String × α)) {k key : String}
    (h : k ≠ key) : lookupKV (delKV l key) k = lookupKV l k := by
  induction l with
  | nil => simp [delKV, lookupKV]
  | cons p rest ih =>
      obtain ⟨a, b⟩ := p
      by_cases hak : a = key
      · subst hak
        simp [delKV, lookupKV, beq_iff_eq, Ne.symm h, ih]
      · by_cases hk : a = k
        · subst hk
          simp [delKV, lookupKV, beq_iff_eq, hak]
        · simp [delKV, lookupKV, beq_iff_eq, hak, hk, ih]

theorem setKV_append_of_not_contains {α : Type} {l : List (String × α)}
    {key : String} (v : α) (hc : containsKey l key = false) :
    setKV l key v = l ++ [(key, v)] := by
  induction l with
  | nil => simp [setKV]
  | cons p rest ih =>
      obtain ⟨a, b⟩ := p
      by_cases hak : a = key
      · subst hak
        simp [containsKey, lookupKV] at hc
      · simp only [containsKey, lookupKV, beq_iff_eq] at hc
        rw [if_neg hak] at hc
        simp [setKV, beq_iff_eq, hak, ih hc]

theorem populate_lookup_some {row : List (String × JVal)}
    {cs : List String} {k : String} {v : JVal}
    (h : lookupKV row k = some v) :
    lookupKV (populate_additional_df_cols row cs) k = some v := by
  induction cs generalizing row with
  | nil => simpa [populate_additional_df_cols] using h
  | cons c rest ih =>
      simp only [populate_additional_df_cols]
      by_cases hc : containsKey row c
      · simpa [hc] using ih h
      · simp only [hc, if_false]
        exact ih (lookupKV_append_of_isSome _ h)

theorem populate_lookup_not_mem {row : List (String × JVal)}
    {cs : List String} {k : String} (h : k ∉ cs) :
    lookupKV (populate_additional_df_cols row cs) k = lookupKV row k := by
  induction cs generalizing row with
  | nil => simp [populate_additional_df_cols]
  | cons c rest ih =>
      have hkc : k ≠ c := fun hk => h (hk ▸ List.mem_cons_self c rest)
      have hrest : k ∉ rest := fun hk => h (List.mem_cons_of_mem c hk)
      simp only [populate_additional_df_cols]
      by_cases hc : containsKey row c = true
      · rw [if_pos hc]
        exact ih hrest
      · rw [if_neg hc]
        rw [ih hrest]
        cases hrow : lookupKV row k with
        | some v => exact lookupKV_append_of_isSome _ hrow
        | none =>
            rw [lookupKV_append_of_none _ hrow]
            simp [lookupKV, Ne.symm hkc]

theorem populate_lookup_mem_none {row : List (String × JVal)}
    {cs : List String} {k : String} (hmem : k ∈ cs)
    (h : lookupKV row k = none) :
    lookupKV (populate_additional_df_cols row cs) k = some JVal.null := by
  induction cs generalizing row with
  | nil => cases hmem
  | cons c rest ih =>
      simp only [populate_additional_df_cols]
      by_cases hkc : k = c
      · subst hkc
        have hc : ¬ containsKey row k = true := by
          simp [containsKey, h]
        rw [if_neg hc]
        apply populate_lookup_some
        rw [lookupKV_append_of_none _ h]
        simp [lookupKV]
      · have hrest : k ∈ rest := by
          cases hmem with
          | head => exact absurd rfl hkc
          | tail _ hr => exact hr
        by_cases hc : containsKey row c = true
        · rw [if_pos hc]
          exact ih hrest h
        · rw [if_neg hc]
          apply ih hrest
          rw [lookupKV_append_of_none _ h]
          simp [lookupKV, Ne.symm hkc]

/-- C10: populate_additional_df_cols returns a dictionary containing
every listed column; a listed column already present keeps its original
value, a listed column that was missing is bound to null, and every key
not in the list keeps exactly its original binding. -/
theorem c10_populate_additional_df_cols_spec
    (row : List (String × JVal)) (additional : List String) :
    (∀ c ∈ additional,
        containsKey (populate_additional_df_cols row additional) c = true) ∧
    (∀ c ∈ additional, ∀ v : JVal, lookupKV row c = some v →
        lookupKV (populate_additional_df_cols row additional) c = some v) ∧
    (∀ c ∈ additional, lookupKV row c = none →
        lookupKV (populate_additional_df_cols row additional) c
          = some JVal.null) ∧
    (∀ k : String, k ∉ additional →
        lookupKV (populate_additional_df_cols row additional) k
          = lookupKV row k) := by
  refine ⟨?_, ?_, ?_, ?_⟩
  · intro c hc
    cases hrow : lookupKV row c with
    | some v => simp [containsKey, populate_lookup_some hrow]
    | none => simp [containsKey, populate_lookup_mem_none hc hrow]
  · intro c _ v hv
    exact populate_lookup_some hv
  · intro c hc h
    exact populate_lookup_mem_none hc h
  · intro k hk
    exact populate_lookup_not_mem hk

/-- C10 witness: on the row `{"a": "x"}` with additional columns
`["a", "b"]`, the missing column `b` is bound to null while `a` keeps
its value. -/
theorem c10_populate_additional_df_cols_spec_witness :
    ("b" ∈ ["a", "b"] ∧ lookupKV [("a", JVal.str "x")] "b" = none) ∧
    lookupKV
      (populate_additional_df_cols [("a", JVal.str "x")] ["a", "b"]) "b"
        = some JVal.null :=
  ⟨⟨by decide, by decide⟩,
    (c10_populate_additional_df_cols_spec [("a", JVal.str "x")]
      ["a", "b"]).2.2.1 "b" (by decide) (by decide)⟩

/-- C5: get_partition_cols maps the empty list and a single
blank/whitespace-only entry to absent, filters empty entries out of a
longer list, returns a single non-blank entry unchanged, and in
particular maps the five enumerated inputs as stated. -/
theorem c5_get_partition_cols_spec :
    get_partition_cols [] = none ∧
    (∀ s : String, stripStr s = "" → get_partition_cols [s] = none) ∧
    (∀ s : String, s ≠ "" → stripStr s ≠ "" → get_partition_cols [s] = some [s]) ∧
    (∀ l : List String, 1 < l.length →
        get_partition_cols l = some (l.filter (fun s => s ≠ ""))) ∧
    get_partition_cols [""] = none ∧
    get_partition_cols ["  "] = none ∧
    get_partition_cols ["a", "", "b"] = some ["a", "b"] ∧
    get_partition_cols ["a", "b"] = some ["a", "b"] := by
  refine ⟨rfl, ?_, ?_, ?_, by decide, by decide, by decide, by decide⟩
  · intro s hs
    simp [get_partition_cols, hs]
  · intro s hs hst
    simp [get_partition_cols, hs, hst]
  · intro l hl
    match l with
    | [] => simp at hl
    | [c] => simp at hl
    | a :: b :: cs => simp [get_partition_cols]

/-- C5 witness: the whitespace-only singleton and the two-element list
with an embedded empty entry behave as the claim states. -/
theorem c5_get_partition_cols_spec_witness :
    (stripStr "  " = "" ∧ get_partition_cols ["  "] = none) ∧
    (1 < (["a", "", "b"] : List String).length ∧
      get_partition_cols ["a", "", "b"]
        = some ((["a", "", "b"] : List String).filter (fun s => s ≠ ""))) :=
  ⟨⟨by decide, c5_get_partition_cols_spec.2.1 "  " (by decide)⟩,
    ⟨by decide, c5_get_partition_cols_spec.2.2.2.1 ["a", "", "b"] (by decide)⟩⟩

/-- C2: get_cdc_apply_changes raises the missing-mandatory-keys error,
naming exactly the absent mandatory keys, if and only if at least one of
`keys`, `sequence_by`, `scd_type` is absent from the payload; and on a
payload holding exactly those three attributes it succeeds with every
other field of the constructed record equal to its documented default. -/
theorem c2_get_cdc_apply_changes_spec :
    (∀ payload : List (String × JVal),
        (∃ m, get_cdc_apply_changes payload
            = Except.error (CdcError.missingMandatory m) ∧ m ≠ [] ∧
            ∀ k, k ∈ m ↔
              (k ∈ cdc_applychanges_api_mandatory_attributes ∧
                containsKey payload k = false))
          ↔ ∃ k ∈ cdc_applychanges_api_mandatory_attributes,
              containsKey payload k = false) ∧
    (∀ kv sv tv : JVal,
        get_cdc_apply_changes
            [("keys", kv), ("sequence_by", sv), ("scd_type", tv)]
          = Except.ok
              ⟨kv, sv, JVal.null, JVal.bool false, JVal.null, JVal.null,
                JVal.null, JVal.null, tv, JVal.null, JVal.null, JVal.null,
                JVal.bool false, JVal.null, JVal.null⟩) := by
  constructor
  · intro payload
    constructor
    · rintro ⟨m, _, hne, hchar⟩
      obtain ⟨k, hk⟩ := List.exists_mem_of_ne_nil m hne
      obtain ⟨hk1, hk2⟩ := (hchar k).mp hk
      exact ⟨k, hk1, hk2⟩
    · rintro ⟨k, hkmand, hkabs⟩
      have hkmem : k ∈ missing_mandatory_attr payload := by
        rw [missing_mandatory_attr]
        exact List.mem_filter.mpr ⟨hkmand, by simp [hkabs]⟩
      have hne : missing_mandatory_attr payload ≠ [] :=
        List.ne_nil_of_mem hkmem
      refine ⟨missing_mandatory_attr payload, ?_, hne, ?_⟩
      · rw [get_cdc_apply_changes, if_pos hne]
      · intro k2
        rw [missing_mandatory_attr, List.mem_filter]
        simp
  · intro kv sv tv
    have h1 : missing_mandatory_attr
        [("keys", kv), ("sequence_by", sv), ("scd_type", tv)] = [] := by
      simp [missing_mandatory_attr, cdc_applychanges_api_mandatory_attributes,
        containsKey, lookupKV, List.filter]
    have h3 : cdcFillDefaults
        [("keys", kv), ("sequence_by", sv), ("scd_type", tv)]
        = cdcFilledDict kv sv tv := by
      simp [cdcFillDefaults, missing_cdc_payload_keys, setKV, containsKey,
        lookupKV, cdc_applychanges_api_attributes,
        cdc_applychanges_api_attributes_defaults, List.foldl, List.filter,
        cdcFilledDict]
    have h4 : populate_additional_df_cols (cdcFilledDict kv sv tv)
        additional_cdc_apply_changes_columns = cdcFilledDict kv sv tv := by
      simp [populate_additional_df_cols, additional_cdc_apply_changes_columns,
        containsKey, lookupKV, cdcFilledDict]
    have h5 : mkCDCApplyChanges (cdcFilledDict kv sv tv)
        = Except.ok
            ⟨kv, sv, JVal.null, JVal.bool false, JVal.null, JVal.null,
              JVal.null, JVal.null, tv, JVal.null, JVal.null, JVal.null,
              JVal.bool false, JVal.null, JVal.null⟩ := by
      simp [mkCDCApplyChanges, payloadKeys, getF, containsKey, lookupKV,
        cdc_applychanges_api_attributes, List.all, List.contains, List.elem,
        cdcFilledDict]
    rw [get_cdc_apply_changes, if_neg (by simp [h1]), h3, h4, h5]

/-- C2 witness: a payload missing `scd_type` raises the error naming it,
and the exact three-attribute payload succeeds with the defaults. -/
theorem c2_get_cdc_apply_changes_spec_witness :
    (∃ m, get_cdc_apply_changes
        [("keys", JVal.arr ["id"]), ("sequence_by", JVal.str "ts")]
        = Except.error (CdcError.missingMandatory m) ∧ m ≠ [] ∧
        ∀ k, k ∈ m ↔
          (k ∈ cdc_applychanges_api_mandatory_attributes ∧
            containsKey
              [("keys", JVal.arr ["id"]), ("sequence_by", JVal.str "ts")] k
              = false)) ∧
    get_cdc_apply_changes
        [("keys", JVal.arr ["id"]), ("sequence_by", JVal.str "ts"),
          ("scd_type", JVal.str "2")]
      = Except.ok
          ⟨JVal.arr ["id"], JVal.str "ts", JVal.null, JVal.bool false,
            JVal.null, JVal.null, JVal.null, JVal.null, JVal.str "2",
            JVal.null, JVal.null, JVal.null, JVal.bool false, JVal.null,
            JVal.null⟩ :=
  ⟨(c2_get_cdc_apply_changes_spec.1
      [("keys", JVal.arr ["id"]), ("sequence_by", JVal.str "ts")]).mpr
      ⟨"scd_type", by decide, by decide⟩,
    c2_get_cdc_apply_changes_spec.2 (JVal.arr ["id"]) (JVal.str "ts")
      (JVal.str "2")⟩

/-- C3: get_sinks errors when any entry is missing one of `name`,
`format`, `options`; a single entry with the mandatory keys present but
a format outside `delta`/`kafka` yields the unsupported-format error for
that format; and a kafka sink whose options carry the bootstrap-servers
secret scope/key pair yields a record whose options bind
`kafka.bootstrap.servers` to the resolved secret and drop the two
reference fields. -/
theorem c3_get_sinks_spec :
    (∀ (sinks : List (List (String × JVal)))
        (secrets : String → String → String),
        (∃ e ∈ sinks, ∃ k ∈ sink_mandatory_attributes,
            containsKey e k = false) →
        ∃ err, get_sinks sinks secrets = Except.error err) ∧
    (∀ (e : List (String × JVal)) (secrets : String → String → String),
        (∀ k ∈ sink_mandatory_attributes, containsKey e k = true) →
        jvalInStrList (sinkFormat e) supported_sink_formats = false →
        get_sinks [e] secrets
          = Except.error (SinkError.unsupportedFormat (sinkFormat e))) ∧
    (∀ (n : String) (o : List (String × String)) (sc ky : String)
        (secrets : String → String → String),
        lookupKV o "kafka_bootstrap_servers_secrets_scope" = some sc →
        lookupKV o "kafka_bootstrap_servers_secrets_key" = some ky →
        ∃ opts : List (String × String),
          get_sinks
              [[("name", JVal.str n), ("format", JVal.str "kafka"),
                ("options", JVal.obj o)]] secrets
            = Except.ok [⟨JVal.str n, JVal.str "kafka", JVal.obj opts⟩] ∧
          lookupKV opts "kafka.bootstrap.servers" = some (secrets sc ky) ∧
          lookupKV opts "kafka_bootstrap_servers_secrets_scope" = none ∧
          lookupKV opts "kafka_bootstrap_servers_secrets_key" = none) := by
  refine ⟨?_, ?_, ?_⟩
  · intro sinks secrets h
    induction sinks with
    | nil => simp at h
    | cons s rest ih =>
        obtain ⟨e, he, k, hkmand, hkabs⟩ := h
        cases he with
        | head =>
            have hkmem : k ∈ sinkMissingMandatory s := by
              rw [sinkMissingMandatory]
              exact List.mem_filter.mpr ⟨hkmand, by simp [hkabs]⟩
            have hp : processSink secrets s
                = Except.error
                    (SinkError.missingMandatory (sinkMissingMandatory s)) := by
              rw [processSink, if_pos (List.ne_nil_of_mem hkmem)]
            exact ⟨SinkError.missingMandatory (sinkMissingMandatory s),
              by simp [get_sinks, hp]⟩
        | tail _ hrest =>
            obtain ⟨err, herr⟩ := ih ⟨e, hrest, k, hkmand, hkabs⟩
            cases hps : processSink secrets s with
            | error e2 => exact ⟨e2, by simp [get_sinks, hps]⟩
            | ok d => exact ⟨err, by simp [get_sinks, hps, herr]⟩
  · intro e secrets hmand hfmt
    have h0 : sinkMissingMandatory e = [] := by
      rw [sinkMissingMandatory]
      refine List.filter_eq_nil_iff.mpr ?_
      intro k hk
      simp [hmand k hk]
    have hp : processSink secrets e
        = Except.error (SinkError.unsupportedFormat (sinkFormat e)) := by
      rw [processSink, if_neg (by simp [h0]), if_pos (by simp [hfmt])]
    simp [get_sinks, hp]
  · intro n o sc ky secrets hsc hky
    refine ⟨resolveKafkaBootstrap secrets o, ?_, ?_, ?_, ?_⟩
    · have h0 : sinkMissingMandatory
          [("name", JVal.str n), ("format", JVal.str "kafka"),
            ("options", JVal.obj o)] = [] := by
        simp [sinkMissingMandatory, sink_mandatory_attributes, containsKey,
          lookupKV, List.filter]
      have hp : processSink secrets
          [("name", JVal.str n), ("format", JVal.str "kafka"),
            ("options", JVal.obj o)]
          = mkDLTSink
              (setKV
                [("name", JVal.str n), ("format", JVal.str "kafka"),
                  ("options", JVal.obj o)]
                "options" (JVal.obj (resolveKafkaBootstrap secrets o))) := by
        rw [processSink, if_neg (by simp [h0])]
        rw [if_neg (by
          simp [sinkFormat, lookupKV, jvalInStrList, supported_sink_formats,
            List.contains, List.elem])]
        rw [if_pos (by
          simp [sinkFormat, lookupKV, containsKey])]
        have hopt : lookupKV
            [("name", JVal.str n), ("format", JVal.str "kafka"),
              ("options", JVal.obj o)] "options" = some (JVal.obj o) := by
          simp [lookupKV]
        simp only [hopt]
        rw [if_pos (by simp [containsKey, hsc, hky])]
      have hset : setKV
          [("name", JVal.str n), ("format", JVal.str "kafka"),
            ("options", JVal.obj o)]
          "options" (JVal.obj (resolveKafkaBootstrap secrets o))
          = [("name", JVal.str n), ("format", JVal.str "kafka"),
              ("options", JVal.obj (resolveKafkaBootstrap secrets o))] := by
        simp [setKV]
      have hmk : mkDLTSink
          [("name", JVal.str n), ("format", JVal.str "kafka"),
            ("options", JVal.obj (resolveKafkaBootstrap secrets o))]
          = Except.ok
              ⟨JVal.str n, JVal.str "kafka",
                JVal.obj (resolveKafkaBootstrap secrets o)⟩ := by
        simp [mkDLTSink, sink_mandatory_attributes, payloadKeys, getF,
          containsKey, lookupKV, List.all, List.contains, List.elem]
      simp [get_sinks, hp, hset, hmk]
    · rw [resolveKafkaBootstrap, lookup_delKV_ne _ (by decide),
        lookup_delKV_ne _ (by decide), lookup_setKV_self]
      simp [hsc, hky]
    · rw [resolveKafkaBootstrap, lookup_delKV_ne _ (by decide),
        lookup_delKV_self]
    · rw [resolveKafkaBootstrap, lookup_delKV_self]

/-- C3 witness: an avro sink raises the unsupported-format error; a
missing-options sink errors; and a concrete kafka sink with secret
scope/key fields resolves `kafka.bootstrap.servers` and drops them. -/
theorem c3_get_sinks_spec_witness :
    ((∃ e ∈ [[("name", JVal.str "s")]],
        ∃ k ∈ sink_mandatory_attributes, containsKey e k = false) ∧
      ∃ err, get_sinks [[("name", JVal.str "s")]] (fun _ _ => "")
        = Except.error err) ∧
    ((∀ k ∈ sink_mandatory_attributes,
        containsKey
          [("name", JVal.str "s"), ("format", JVal.str "avro"),
            ("options", JVal.obj [])] k = true) ∧
      jvalInStrList
        (sinkFormat
          [("name", JVal.str "s"), ("format", JVal.str "avro"),
            ("options", JVal.obj [])]) supported_sink_formats = false ∧
      get_sinks
          [[("name", JVal.str "s"), ("format", JVal.str "avro"),
            ("options", JVal.obj [])]] (fun _ _ => "")
        = Except.error
            (SinkError.unsupportedFormat
              (sinkFormat
                [("name", JVal.str "s"), ("format", JVal.str "avro"),
                  ("options", JVal.obj [])]))) ∧
    (lookupKV
        [("kafka_bootstrap_servers_secrets_scope", "scope1"),
          ("kafka_bootstrap_servers_secrets_key", "key1")]
        "kafka_bootstrap_servers_secrets_scope" = some "scope1" ∧
      lookupKV
        [("kafka_bootstrap_servers_secrets_scope", "scope1"),
          ("kafka_bootstrap_servers_secrets_key", "key1")]
        "kafka_bootstrap_servers_secrets_key" = some "key1" ∧
      ∃ opts : List (String × String),
        get_sinks
            [[("name", JVal.str "k"), ("format", JVal.str "kafka"),
              ("options", JVal.obj
                [("kafka_bootstrap_servers_secrets_scope", "scope1"),
                  ("kafka_bootstrap_servers_secrets_key", "key1")])]]
            (fun a b => a ++ ":" ++ b)
          = Except.ok
              [⟨JVal.str "k", JVal.str "kafka", JVal.obj opts⟩] ∧
        lookupKV opts "kafka.bootstrap.servers"
          = some ((fun a b => a ++ ":" ++ b) "scope1" "key1") ∧
        lookupKV opts "kafka_bootstrap_servers_secrets_scope" = none ∧
        lookupKV opts "kafka_bootstrap_servers_secrets_key" = none) :=
  ⟨⟨⟨[("name", JVal.str "s")], by decide, "format", by decide, by decide⟩,
      c3_get_sinks_spec.1 [[("name", JVal.str "s")]] (fun _ _ => "")
        ⟨[("name", JVal.str "s")], by decide, "format", by decide, by decide⟩⟩,
    ⟨by decide, by decide,
      c3_get_sinks_spec.2.1
        [("name", JVal.str "s"), ("format", JVal.str "avro"),
          ("options", JVal.obj [])] (fun _ _ => "") (by decide) (by decide)⟩,
    ⟨by decide, by decide,
      c3_get_sinks_spec.2.2 "k"
        [("kafka_bootstrap_servers_secrets_scope", "scope1"),
          ("kafka_bootstrap_servers_secrets_key", "key1")]
        "scope1" "key1" (fun a b => a ++ ":" ++ b) (by decide) (by decide)⟩⟩

/-- C4 (amended): validation fails whenever the key `layer` is unset,
whenever `<layer>.dataflowspecTable` (for the configured layer value) is
unset, and whenever neither `<layer>.group` nor `<layer>.dataflowIds` is
set; the second failure names `<layer_arg>.dataflowspecTable` and the
third names `<layer>.group`/`<layer>.dataflowIds`, while the first
failure's message names the layer argument itself rather than the key
`layer`; when all required keys are set the call succeeds. -/
theorem c4_check_conf_params_amended (conf : String → Option String)
    (layer_arg : String) :
    (conf "layer" = none →
        check_spark_dataflowpipeline_conf_params conf layer_arg
          = Except.error (ConfError.missingLayer layer_arg)) ∧
    (∀ layer, conf "layer" = some layer →
        conf (layer ++ ".dataflowspecTable") = none →
        check_spark_dataflowpipeline_conf_params conf layer_arg
          = Except.error
              (ConfError.missingSpecTable
                (layer_arg ++ ".dataflowspecTable"))) ∧
    (∀ layer tbl, conf "layer" = some layer →
        conf (layer ++ ".dataflowspecTable") = some tbl →
        conf (layer ++ ".group") = none →
        conf (layer ++ ".dataflowIds") = none →
        check_spark_dataflowpipeline_conf_params conf layer_arg
          = Except.error
              (ConfError.missingGroupAndIds (layer ++ ".group")
                (layer ++ ".dataflowIds"))) ∧
    (∀ layer tbl, conf "layer" = some layer →
        conf (layer ++ ".dataflowspecTable") = some tbl →
        ((conf (layer ++ ".group")).isSome
          ∨ (conf (layer ++ ".dataflowIds")).isSome) →
        check_spark_dataflowpipeline_conf_params conf layer_arg
          = Except.ok ()) := by
  refine ⟨?_, ?_, ?_, ?_⟩
  · intro h
    simp [check_spark_dataflowpipeline_conf_params, h]
  · intro layer h1 h2
    simp [check_spark_dataflowpipeline_conf_params, h1, h2]
  · intro layer tbl h1 h2 h3 h4
    simp [check_spark_dataflowpipeline_conf_params, h1, h2, h3, h4]
  · intro layer tbl h1 h2 h3
    cases hg : conf (layer ++ ".group") with
    | some g => simp [check_spark_dataflowpipeline_conf_params, h1, h2, hg]
    | none =>
        cases hi : conf (layer ++ ".dataflowIds") with
        | some i2 =>
            simp [check_spark_dataflowpipeline_conf_params, h1, h2, hg, hi]
        | none => simp [hg, hi] at h3

/-- C4 counterexample: the missing-layer failure does not state the key
the caller needs to set. With nothing configured, the error's message
interpolates only the layer argument `bronze`; the key that must be set
is `layer` (setting `bronze` to `silver`, as the message instructs,
still raises the same error, while setting `layer` moves past the first
check), and `bronze` is not `layer`. -/
theorem c4_check_conf_params_counterexample :
    check_spark_dataflowpipeline_conf_params (fun _ => none) "bronze"
      = Except.error (ConfError.missingLayer "bronze") ∧
    check_spark_dataflowpipeline_conf_params
        (fun k => if k = "bronze" then some "silver" else none) "bronze"
      = Except.error (ConfError.missingLayer "bronze") ∧
    check_spark_dataflowpipeline_conf_params
        (fun k => if k = "layer" then some "bronze" else none) "bronze"
      = Except.error
          (ConfError.missingSpecTable ("bronze" ++ ".dataflowspecTable")) ∧
    ("bronze" : String) ≠ "layer" :=
  ⟨rfl, rfl, rfl, by decide⟩

/-- C4 witness: with `layer`, `bronze.dataflowspecTable` and
`bronze.group` configured, validation succeeds. -/
theorem c4_check_conf_params_witness :
    ((fun k => if k = "layer" then some "bronze"
        else if k = "bronze.dataflowspecTable" then some "db.t"
        else if k = "bronze.group" then some "G" else none) "layer"
        = some "bronze") ∧
    check_spark_dataflowpipeline_conf_params
        (fun k => if k = "layer" then some "bronze"
          else if k = "bronze.dataflowspecTable" then some "db.t"
          else if k = "bronze.group" then some "G" else none) "bronze"
      = Except.ok () :=
  ⟨rfl,
    (c4_check_conf_params_amended
        (fun k => if k = "layer" then some "bronze"
          else if k = "bronze.dataflowspecTable" then some "db.t"
          else if k = "bronze.group" then some "G" else none)
        "bronze").2.2.2 "bronze" "db.t" rfl rfl (Or.inl rfl)⟩

theorem check_cond_mandatory_arg_eq_find (args : String → Option String)
    (l : List String) :
    check_cond_mandatory_arg args l
      = match l.find? (fun a => (args a).isNone) with
        | some m => Except.error (ArgError.missingArg m)
        | none => Except.ok () := by
  induction l with
  | nil => rfl
  | cons a rest ih =>
      by_cases h : (args a).isNone = true
      · rw [check_cond_mandatory_arg, if_pos h,
          List.find?_cons_of_pos (p := fun a => (args a).isNone) rest h]
      · rw [check_cond_mandatory_arg, if_neg h,
          List.find?_cons_of_neg (p := fun a => (args a).isNone) rest h, ih]

/-- C6: after parsing, an eventhub source makes the seven event-hub
arguments mandatory and a kafka source the two kafka arguments; the
raised error names the first missing one in source order (find?), and
when none is missing the check succeeds. -/
theorem c6_process_arguments_spec (args : String → Option String) :
    (args "source" = some "eventhub" →
        process_arguments_conditional args
          = match eventhub_mandatory_args.find? (fun a => (args a).isNone)
              with
            | some m => Except.error (ArgError.missingArg m)
            | none => Except.ok ()) ∧
    (args "source" = some "kafka" →
        process_arguments_conditional args
          = match kafka_mandatory_args.find? (fun a => (args a).isNone) with
            | some m => Except.error (ArgError.missingArg m)
            | none => Except.ok ()) := by
  constructor
  · intro h
    rw [process_arguments_conditional, if_pos h,
      check_cond_mandatory_arg_eq_find]
  · intro h
    rw [process_arguments_conditional, if_neg (by simp [h]), if_pos h,
      check_cond_mandatory_arg_eq_find]

/-- C6 witness: an eventhub invocation missing only eventhub_namespace
errors naming eventhub_namespace, and one with all seven present
succeeds. -/
theorem c6_process_arguments_spec_witness :
    ((fun k => if k = "eventhub_namespace" then none
        else if k = "source" then some "eventhub" else some "v") "source"
        = some "eventhub") ∧
    process_arguments_conditional
        (fun k => if k = "eventhub_namespace" then none
          else if k = "source" then some "eventhub" else some "v")
      = Except.error (ArgError.missingArg "eventhub_namespace") ∧
    process_arguments_conditional
        (fun k => if k = "source" then some "eventhub" else some "v")
      = Except.ok () :=
  ⟨rfl,
    by
      rw [(c6_process_arguments_spec
        (fun k => if k = "eventhub_namespace" then none
          else if k = "source" then some "eventhub" else some "v")).1 rfl]
      rfl,
    by
      rw [(c6_process_arguments_spec
        (fun k => if k = "source" then some "eventhub" else some "v")).1 rfl]
      rfl⟩

/-- C7: under every environment (whatever each call would do), the run
body executes init_dltmeta_runner_conf and then at most the bare exit():
pipeline creation, workflow launch, result download and cleanup are
never in the executed trace; when init completes the trace is exactly
init followed by exit, and when init raises the trace stops at init. -/
theorem c7_run_spec (env : RunStep → Bool) :
    (RunStep.create_bronze_silver_dlt ∉ runTrace env ∧
      RunStep.launch_workflow ∉ runTrace env ∧
      RunStep.download_test_results ∉ runTrace env ∧
      RunStep.clean_up ∉ runTrace env) ∧
    (env RunStep.init_dltmeta_runner_conf = true →
        runTrace env
          = [RunStep.init_dltmeta_runner_conf, RunStep.exitCall]) ∧
    (env RunStep.init_dltmeta_runner_conf = false →
        runTrace env = [RunStep.init_dltmeta_runner_conf]) := by
  by_cases h : env RunStep.init_dltmeta_runner_conf = true
  · have ht : runTrace env
        = [RunStep.init_dltmeta_runner_conf, RunStep.exitCall] := by
      simp [runTrace, runBody, execSteps, stepOutcome, h]
    rw [ht]
    exact ⟨⟨by decide, by decide, by decide, by decide⟩, fun _ => rfl,
      fun hf => absurd h (by simp [hf])⟩
  · have hf : env RunStep.init_dltmeta_runner_conf = false := by
      simpa using h
    have ht : runTrace env = [RunStep.init_dltmeta_runner_conf] := by
      simp [runTrace, runBody, execSteps, stepOutcome, hf]
    rw [ht]
    exact ⟨⟨by decide, by decide, by decide, by decide⟩,
      fun htr => absurd htr h, fun _ => rfl⟩

/-- C7 witness: when every call succeeds, the trace is exactly init then
exit, and pipeline creation is never executed. -/
theorem c7_run_spec_witness :
    ((fun _ : RunStep => true) RunStep.init_dltmeta_runner_conf = true) ∧
    runTrace (fun _ => true)
      = [RunStep.init_dltmeta_runner_conf, RunStep.exitCall] ∧
    RunStep.create_bronze_silver_dlt ∉ runTrace (fun _ => true) :=
  ⟨rfl, (c7_run_spec (fun _ => true)).2.1 rfl,
    ((c7_run_spec (fun _ => true)).1).1⟩

theorem confUploadLoop_some_isOk (f : String) (dirs : List (List String)) :
    ∃ up, confUploadLoop (some f) dirs = Except.ok up := by
  induction dirs generalizing f with
  | nil => exact ⟨[], rfl⟩
  | cons files rest ih =>
      by_cases h : endsWithStr f "json" = true
      · cases hl : files.getLast? with
        | none =>
            obtain ⟨up, hup⟩ := ih f
            exact ⟨files ++ up, by simp [confUploadLoop, h, hl, hup]⟩
        | some g =>
            obtain ⟨up, hup⟩ := ih g
            exact ⟨files ++ up, by simp [confUploadLoop, h, hl, hup]⟩
      · obtain ⟨up, hup⟩ := ih f
        exact ⟨up, by simp [confUploadLoop, h, hup]⟩

/-- C8: in the conf-directory walk, each directory's files are uploaded
exactly when the single per-directory check on the last-seen file name
passes: when that name ends in "json" every file of the directory is
uploaded (json-named or not), and when it does not, the directory is
skipped entirely and processing continues with the same name. -/
theorem c8_upload_files_spec :
    (∀ (f : String) (files : List String) (rest : List (List String)),
        endsWithStr f "json" = true →
        ∃ up, confUploadLoop (some f) (files :: rest)
          = Except.ok (files ++ up)) ∧
    (∀ (f : String) (files : List String) (rest : List (List String)),
        endsWithStr f "json" = false →
        confUploadLoop (some f) (files :: rest)
          = confUploadLoop (some f) rest) ∧
    (∀ (file : Option String) (dirs : List (List String)),
        (resourcesUploadLoop file dirs).2 = dirs.flatten) := by
  refine ⟨?_, ?_, ?_⟩
  · intro f files rest h
    cases hl : files.getLast? with
    | none =>
        obtain ⟨up, hup⟩ := confUploadLoop_some_isOk f rest
        exact ⟨up, by simp [confUploadLoop, h, hl, hup]⟩
    | some g =>
        obtain ⟨up, hup⟩ := confUploadLoop_some_isOk g rest
        exact ⟨up, by simp [confUploadLoop, h, hl, hup]⟩
  · intro f files rest h
    obtain ⟨up, hup⟩ := confUploadLoop_some_isOk f rest
    simp [confUploadLoop, h, hup]
  · intro file dirs
    induction dirs generalizing file with
    | nil => simp [resourcesUploadLoop]
    | cons files rest ih => simp [resourcesUploadLoop, ih, List.flatten]

/-- C8 witness: with last-seen name `x.json`, a directory holding
`a.txt` and `b.json` is uploaded whole (the non-json file included);
with last-seen name `data.txt`, a directory holding only `a.json` is
skipped entirely. -/
theorem c8_upload_files_spec_witness :
    (endsWithStr "x.json" "json" = true ∧
      ∃ up, confUploadLoop (some "x.json") [["a.txt", "b.json"]]
        = Except.ok (["a.txt", "b.json"] ++ up)) ∧
    (endsWithStr "data.txt" "json" = false ∧
      confUploadLoop (some "data.txt") [["a.json"]]
        = confUploadLoop (some "data.txt") []) :=
  ⟨⟨by decide,
      c8_upload_files_spec.1 "x.json" ["a.txt", "b.json"] [] (by decide)⟩,
    ⟨by decide,
      c8_upload_files_spec.2.1 "data.txt" ["a.json"] [] (by decide)⟩⟩

/-- C9: in _get_dataflow_spec, whenever a (truthy) group is available —
as an argument or from spark.conf — the rows are filtered only by the
exact dataFlowGroup match, whatever dataflow ids are configured; the
dataFlowId membership filter applies only when no group is available
and ids are. -/
theorem c9_get_dataflow_spec_filter (confGroup : Option String)
    (confIds : Option (List String)) (df : List SpecRow)
    (group : Option String) (ids : Option (List String)) :
    (truthyStr (effectiveGroup confGroup group) = true →
        _get_dataflow_spec confGroup confIds df group ids
          = keepLatest (df.filter (fun r =>
              r.dataFlowGroup == (effectiveGroup confGroup group).getD ""))) ∧
    (truthyStr (effectiveGroup confGroup group) = false →
        truthyIds (effectiveIds confIds ids) = true →
        _get_dataflow_spec confGroup confIds df group ids
          = keepLatest (df.filter (fun r =>
              ((effectiveIds confIds ids).getD []).contains
                r.dataFlowId))) := by
  constructor
  · intro hg
    rw [_get_dataflow_spec, filterSpecRows, if_pos (by simp [hg]),
      if_pos hg]
  · intro hg hi
    rw [_get_dataflow_spec, filterSpecRows, if_pos (by simp [hg, hi]),
      if_neg (by simp [hg])]

/-- C9 witness: with both a group argument and an id list supplied, the
result is the group-filtered dedup, the id list playing no role. -/
theorem c9_get_dataflow_spec_filter_witness :
    truthyStr (effectiveGroup none (some "A1")) = true ∧
    _get_dataflow_spec none none
        [⟨"A1", "F1", 1, "p1"⟩, ⟨"A2", "F2", 1, "p2"⟩]
        (some "A1") (some ["F2"])
      = keepLatest
          ([⟨"A1", "F1", 1, "p1"⟩, ⟨"A2", "F2", 1, "p2"⟩].filter
            (fun r =>
              r.dataFlowGroup == (effectiveGroup none (some "A1")).getD "")) :=
  ⟨by decide,
    (c9_get_dataflow_spec_filter none none
        [⟨"A1", "F1", 1, "p1"⟩, ⟨"A2", "F2", 1, "p2"⟩]
        (some "A1") (some ["F2"])).1 (by decide)⟩

theorem samePartition_iff {a b : SpecRow} :
    samePartition a b = true ↔
      (a.dataFlowGroup = b.dataFlowGroup ∧ a.dataFlowId = b.dataFlowId) := by
  simp [samePartition]

theorem samePartition_symm {a b : SpecRow} (h : samePartition a b = true) :
    samePartition b a = true := by
  rw [samePartition_iff] at h ⊢
  exact ⟨h.1.symm, h.2.symm⟩

theorem get_dataflow_spec_nofilter (rows : List SpecRow) :
    _get_dataflow_spec none none rows none none = keepLatest rows := rfl

theorem mem_keepLatest (rows : List SpecRow) (r : SpecRow) :
    r ∈ keepLatest rows ↔
      ∃ i, (i, r) ∈ rows.enum ∧
        ∀ q ∈ rows.enum, ranksBefore q (i, r) = false := by
  simp only [keepLatest]
  constructor
  · intro hr
    obtain ⟨p, hp, hpr⟩ := List.mem_map.mp hr
    obtain ⟨i, r2⟩ := p
    obtain ⟨hpe, hP⟩ := List.mem_filter.mp hp
    have hr2 : r2 = r := hpr
    subst hr2
    refine ⟨i, hpe, ?_⟩
    intro q hq
    have hqq := List.all_eq_true.mp hP q hq
    simpa using hqq
  · rintro ⟨i, hi, hall⟩
    exact List.mem_map.mpr ⟨(i, r),
      List.mem_filter.mpr ⟨hi, List.all_eq_true.mpr
        (fun q hq => by simp [hall q hq])⟩, rfl⟩

theorem versions_distinct_of_pairwise {rows : List SpecRow}
    (hdist : rows.Pairwise
      (fun a b => samePartition a b = true → a.version ≠ b.version))
    {i j : Nat} {r r2 : SpecRow} (hi : rows.get? i = some r)
    (hj : rows.get? j = some r2) (hij : i ≠ j)
    (hsp : samePartition r r2 = true) : r.version ≠ r2.version := by
  obtain ⟨hilen, hig⟩ := List.get?_eq_some.mp hi
  obtain ⟨hjlen, hjg⟩ := List.get?_eq_some.mp hj
  rcases Nat.lt_or_ge i j with hlt | hge
  · have hR := List.pairwise_iff_get.mp hdist ⟨i, hilen⟩ ⟨j, hjlen⟩ hlt
    rw [hig, hjg] at hR
    exact hR hsp
  · have hjlt : j < i := Nat.lt_of_le_of_ne hge (Ne.symm hij)
    have hR := List.pairwise_iff_get.mp hdist ⟨j, hjlen⟩ ⟨i, hilen⟩ hjlt
    rw [hig, hjg] at hR
    exact fun he => (hR (samePartition_symm hsp)) he.symm

/-- C1: with no filtering configured and distinct versions per flow,
_get_dataflow_spec returns exactly, for each (dataFlowGroup, dataFlowId)
pair present, the row carrying the maximum version — a row is in the
result iff it is a table row no same-partition row out-versions — and
the result holds at most one row per pair. -/
theorem c1_latest_version_selection (rows : List SpecRow)
    (hdist : rows.Pairwise
      (fun a b => samePartition a b = true → a.version ≠ b.version)) :
    (∀ r, r ∈ _get_dataflow_spec none none rows none none ↔
        (r ∈ rows ∧ ∀ r2 ∈ rows, samePartition r2 r = true →
          r2.version ≤ r.version)) ∧
    (_get_dataflow_spec none none rows none none).Pairwise
      (fun a b => samePartition a b = false) := by
  rw [get_dataflow_spec_nofilter]
  constructor
  · intro r
    rw [mem_keepLatest]
    constructor
    · rintro ⟨i, hi, hall⟩
      have hig : rows.get? i = some r := List.mem_enum_iff_get?.mp hi
      refine ⟨List.get?_mem hig, ?_⟩
      intro r2 hr2 hsp
      obtain ⟨j, hj⟩ := List.mem_iff_get?.mp hr2
      have hq := hall (j, r2) (List.mem_enum_iff_get?.mpr hj)
      simp [ranksBefore, hsp] at hq
      exact hq.1
    · rintro ⟨hr, hmax⟩
      obtain ⟨i, hi⟩ := List.mem_iff_get?.mp hr
      refine ⟨i, List.mem_enum_iff_get?.mpr hi, ?_⟩
      rintro ⟨j, r2⟩ hq
      have hj : rows.get? j = some r2 := List.mem_enum_iff_get?.mp hq
      by_cases hsp : samePartition r2 r = true
      · have hle := hmax r2 (List.get?_mem hj) hsp
        simp [ranksBefore, hsp, Nat.not_lt.mpr hle]
        intro heq
        by_contra hij
        exact versions_distinct_of_pairwise hdist hj hi
          (Nat.ne_of_lt (Nat.lt_of_not_le hij)) hsp heq.symm
      · have hspf : samePartition r2 r = false := by simpa using hsp
        simp [ranksBefore, hspf]
  · have henum : rows.enum.Pairwise (fun p q => p.1 < q.1) := by
      have h1 := List.pairwise_lt_range rows.length
      rw [← List.enum_map_fst] at h1
      exact List.pairwise_map.mp h1
    have hfilt := henum.filter
      (fun q => rows.enum.all (fun p => !(ranksBefore p q)))
    simp only [keepLatest]
    apply List.pairwise_map.mpr
    apply List.Pairwise.imp_of_mem ?_ hfilt
    rintro ⟨ip, rp⟩ ⟨iq, rq⟩ hp hq hlt
    by_contra hne
    have hsp : samePartition rp rq = true := by
      simpa using hne
    obtain ⟨hpe, hPp⟩ := List.mem_filter.mp hp
    obtain ⟨hqe, hPq⟩ := List.mem_filter.mp hq
    have h1 := List.all_eq_true.mp hPp (⟨iq, rq⟩ : Nat × SpecRow) hqe
    have h2 := List.all_eq_true.mp hPq (⟨ip, rp⟩ : Nat × SpecRow) hpe
    simp [ranksBefore, hsp, samePartition_symm hsp] at h1 h2
    have hveq : rp.version = rq.version := Nat.le_antisymm h2.1 h1.1
    rcases h2.2 with hne2 | hle2
    · exact hne2 hveq.symm
    · exact absurd hlt (Nat.not_lt.mpr hle2)

/-- C1 witness: for one flow with versions 1, 2, 3, exactly the
version-3 row is returned; versions 1 and 2 are absent. -/
theorem c1_latest_version_selection_witness :
    ([⟨"G", "F", 1, "v1"⟩, ⟨"G", "F", 2, "v2"⟩,
        ⟨"G", "F", 3, "v3"⟩] : List SpecRow).Pairwise
      (fun a b => samePartition a b = true → a.version ≠ b.version) ∧
    (⟨"G", "F", 3, "v3"⟩ : SpecRow) ∈
      _get_dataflow_spec none none
        [⟨"G", "F", 1, "v1"⟩, ⟨"G", "F", 2, "v2"⟩, ⟨"G", "F", 3, "v3"⟩]
        none none ∧
    (⟨"G", "F", 1, "v1"⟩ : SpecRow) ∉
      _get_dataflow_spec none none
        [⟨"G", "F", 1, "v1"⟩, ⟨"G", "F", 2, "v2"⟩, ⟨"G", "F", 3, "v3"⟩]
        none none ∧
    (⟨"G", "F", 2, "v2"⟩ : SpecRow) ∉
      _get_dataflow_spec none none
        [⟨"G", "F", 1, "v1"⟩, ⟨"G", "F", 2, "v2"⟩, ⟨"G", "F", 3, "v3"⟩]
        none none :=
  ⟨by decide,
    ((c1_latest_version_selection
        [⟨"G", "F", 1, "v1"⟩, ⟨"G", "F", 2, "v2"⟩, ⟨"G", "F", 3, "v3"⟩]
        (by decide)).1 ⟨"G", "F", 3, "v3"⟩).mpr ⟨by decide, by decide⟩,
    fun h => absurd
      (((c1_latest_version_selection
          [⟨"G", "F", 1, "v1"⟩, ⟨"G", "F", 2, "v2"⟩, ⟨"G", "F", 3, "v3"⟩]
          (by decide)).1 ⟨"G", "F", 1, "v1"⟩).mp h) (by decide),
    fun h => absurd
      (((c1_latest_version_selection
          [⟨"G", "F", 1, "v1"⟩, ⟨"G", "F", 2, "v2"⟩, ⟨"G", "F", 3, "v3"⟩]
          (by decide)).1 ⟨"G", "F", 2, "v2"⟩).mp h) (by decide)⟩

end DltMeta
